import Mathlib

/-!
Shallow embedding of the confidential-record ("note") primitive of
`dpc/src/record/record.rs`, together with the primitive ports it consumes
(commitment scheme, encryption scheme, serial-number PRF), and proofs of the
specified properties of construction, encryption, recovery, serial-number
derivation and the two serialization adapters.

Byte strings are modelled as `List Nat` (each entry a byte value); machine
`u64` values are `Nat` with explicit bounds and an explicit 8-byte
little-endian codec. Fallible operations return `Except RecordError`.
-/

namespace SnarkVM

/-- Byte strings (little-endian where an integer is meant). -/
abbrev Bytes := List Nat

instance exceptDecEq {ε α : Type} [DecidableEq ε] [DecidableEq α] :
    DecidableEq (Except ε α) := fun a b =>
  match a, b with
  | .error e, .error f =>
      decidable_of_iff (e = f) ⟨fun h => by rw [h], fun h => by cases h; rfl⟩
  | .error _, .ok _ => .isFalse (fun h => Except.noConfusion h)
  | .ok _, .error _ => .isFalse (fun h => Except.noConfusion h)
  | .ok x, .ok y =>
      decidable_of_iff (x = y) ⟨fun h => by rw [h], fun h => by cases h; rfl⟩

/-- Little-endian interpretation of a byte string as a natural number,
mirroring `FromBytes`/`from_bytes_le_mod_order` style readers. -/
def bytesToNatLE (b : Bytes) : Nat :=
  b.foldr (fun x acc => x + 256 * acc) 0

/-- The `n`-byte little-endian encoding of `v` (`to_bytes_le` on a fixed-width
integer): byte `i` is `v / 256 ^ i % 256`. -/
def natToBytesLE : Nat → Nat → Bytes
  | 0, _ => []
  | n + 1, v => v % 256 :: natToBytesLE n (v / 256)

/-- `u64::write_le`: the 8-byte little-endian encoding. -/
def u64ToBytesLE (v : Nat) : Bytes := natToBytesLE 8 v

/-- The byte a Rust `bool` serializes to (`is_dummy` flag byte). -/
def boolByte (b : Bool) : Nat := if b then 1 else 0

/-- Errors surfaced by record construction, recovery and serialization,
mirroring `RecordError` and the `anyhow!` messages of `record.rs`.
`lengthAssertion` models the `assert_eq!` panic of `decode_plaintext`;
`mismatchingViewKeyCommitment`, `decryptionFailure` and
`ciphertextParseFailure` surface from the record-ciphertext port. -/
inductive RecordError
  | incorrectComputeKey
  | incorrectOwner
  | invalidCommitment (expected actual : Bytes)
  | malformedDummyFlag
  | plaintextTooLarge
  | mismatchingViewKeyCommitment
  | decryptionFailure
  | ciphertextParseFailure
  | lengthAssertion
  | bytesExhausted
deriving DecidableEq, Repr

/-- The `Network`-scoped parameter set consumed by `Record<N>`: fixed field
widths, the distinguished noop program id, and the three primitive ports
(`CommitmentScheme`, `EncryptionScheme`, `SerialNumberPRF`) plus the external
address-derivation functions. Compute keys and view keys are opaque byte
strings; their derived addresses are given by the port functions. -/
structure Network where
  addressSize : Nat
  payloadSize : Nat
  programIdSize : Nat
  randomizerSize : Nat
  viewKeySize : Nat
  kcSize : Nat
  noopProgramId : Bytes
  scalarFieldOrder : Nat
  generateAsymmetricKey : Bytes → Nat → Bytes × Bytes × Bytes
  generateSymmetricKey : Bytes → Bytes → Bytes
  generateKeyCommitment : Bytes → Bytes
  encrypt : Bytes → Bytes → Bytes
  decrypt : Bytes → Bytes → Option Bytes
  commit : Bytes → Nat → Bytes
  prf : Bytes → Bytes → Bytes
  addressFromViewKey : Bytes → Bytes
  addressFromComputeKey : Bytes → Bytes
  skPrf : Bytes → Bytes

/-- `Payload::is_empty`: the fixed-capacity payload blob counts as empty when
it carries no data (all bytes zero, the `Payload::default()` state). -/
def isEmptyPayload (p : Bytes) : Bool := p.all (fun b => b == 0)

/-- The dummy predicate of `record.rs`:
`value == 0 && payload.is_empty() && program_id == *N::noop_program_id()`. -/
def isDummyFields (N : Network) (value : Nat) (payload pid : Bytes) : Bool :=
  value == 0 && isEmptyPayload payload && pid == N.noopProgramId

/-- The flat plaintext layout of `encode_plaintext`:
`to_bytes_le![owner, is_dummy, value, payload, program_id]`. -/
def plaintextBytes (N : Network) (owner : Bytes) (value : Nat) (payload pid : Bytes) : Bytes :=
  owner ++ ([boolByte (isDummyFields N value payload pid)] ++
    (u64ToBytesLE value ++ (payload ++ pid)))

/-- `Record::encode_plaintext`: lay the fields out as `plaintextBytes` and
enforce the 65535-byte protocol ceiling. -/
def encodePlaintext (N : Network) (owner : Bytes) (value : Nat) (payload pid : Bytes) :
    Except RecordError Bytes :=
  if (plaintextBytes N owner value payload pid).length ≤ 65535
  then .ok (plaintextBytes N owner value payload pid)
  else .error .plaintextTooLarge

/-- The field tuple `(owner, value, payload, program_id)` read back from a
plaintext by the fixed-width cursor of `decode_plaintext`. -/
def parsePlaintextFields (N : Network) (pt : Bytes) : Bytes × Nat × Bytes × Bytes :=
  let owner := pt.take N.addressSize
  let rest1 := (pt.drop N.addressSize).drop 1
  let value := bytesToNatLE (rest1.take 8)
  let rest2 := rest1.drop 8
  let payload := rest2.take N.payloadSize
  let pid := (rest2.drop N.payloadSize).take N.programIdSize
  (owner, value, payload, pid)

/-- The `is_dummy` flag byte read by `decode_plaintext` (the `u8` following the
owner bytes). -/
def plaintextFlagByte (N : Network) (pt : Bytes) : Nat :=
  (pt.drop N.addressSize).headD 0

/-- `Record::decode_plaintext`: assert the exact fixed width
(`assert_eq!`, modelled as the distinguished `lengthAssertion` error), read the
fields, recompute the dummy predicate from the decoded fields and compare it
against the encoded flag byte. -/
def decodePlaintext (N : Network) (pt : Bytes) :
    Except RecordError (Bytes × Nat × Bytes × Bytes) :=
  if pt.length = 1 + N.addressSize + 8 + N.payloadSize + N.programIdSize then
    if plaintextFlagByte N pt =
        boolByte (isDummyFields N (parsePlaintextFields N pt).2.1
          (parsePlaintextFields N pt).2.2.1 (parsePlaintextFields N pt).2.2.2)
    then .ok (parsePlaintextFields N pt)
    else .error .malformedDummyFlag
  else .error .lengthAssertion

/-- Modelled from the spec: `RecordCiphertext` (its source file is not under
`src/`). Per §4.3 the ciphertext bytes are the concatenation
`randomizer ∥ generate_key_commitment(record_view_key) ∥ encrypt(record_view_key, plaintext)`;
per §4.4 the public randomizer is read directly from the ciphertext. -/
structure RecordCiphertext where
  randomizer : Bytes
  keyCommitment : Bytes
  encBytes : Bytes
deriving DecidableEq, Repr

/-- Serialization of a parsed ciphertext back to its flat bytes
(`to_bytes_le![ciphertext]`). -/
def RecordCiphertext.toBytes (c : RecordCiphertext) : Bytes :=
  c.randomizer ++ (c.keyCommitment ++ c.encBytes)

/-- Modelled from the spec: `RecordCiphertext::from` parses the flat bytes at
the fixed widths of the randomizer and the key-commitment segments (§4.3
layout); too-short input fails. -/
def RecordCiphertext.fromBytes (N : Network) (b : Bytes) :
    Except RecordError RecordCiphertext :=
  if N.randomizerSize + N.kcSize ≤ b.length then
    .ok ⟨b.take N.randomizerSize, (b.drop N.randomizerSize).take N.kcSize,
         b.drop (N.randomizerSize + N.kcSize)⟩
  else .error .ciphertextParseFailure

/-- Modelled from the spec: `RecordCiphertext::to_plaintext` — the key
commitment "lets a recipient detect wrong-key decryption before trusting
plaintext" (§4.2), so the stored key-commitment segment is checked against
`generate_key_commitment` of the supplied record view key before decrypting. -/
def RecordCiphertext.toPlaintext (N : Network) (c : RecordCiphertext) (rvk : Bytes) :
    Except RecordError Bytes :=
  if c.keyCommitment = N.generateKeyCommitment rvk then
    match N.decrypt rvk c.encBytes with
    | some pt => .ok pt
    | none => .error .decryptionFailure
  else .error .mismatchingViewKeyCommitment

/-- `from_bytes_le_mod_order` on the record view key bytes:
`Record::record_view_key_to_comm_randomness`. -/
def recordViewKeyToCommRandomness (N : Network) (rvk : Bytes) : Nat :=
  bytesToNatLE rvk % N.scalarFieldOrder

/-- The record aggregate of `record.rs` (immutable once constructed). -/
structure Record where
  owner : Bytes
  value : Nat
  payload : Bytes
  program_id : Bytes
  randomizer : Bytes
  record_view_key : Bytes
  commitment : Bytes
deriving DecidableEq, Repr

/-- The ciphertext built inside `Record::from`:
`RecordCiphertext::from(&to_bytes_le![randomizer, generate_key_commitment(rvk), encrypt(rvk, plaintext)])`. -/
def Record.constructCiphertext (N : Network) (owner : Bytes) (value : Nat)
    (payload pid randomizer rvk : Bytes) : Except RecordError RecordCiphertext :=
  match encodePlaintext N owner value payload pid with
  | .error e => .error e
  | .ok plaintext =>
      RecordCiphertext.fromBytes N
        (randomizer ++ (N.generateKeyCommitment rvk ++ N.encrypt rvk plaintext))

/-- `Record::from`: encode the plaintext, build the ciphertext, and commit to
`to_bytes_le![ciphertext, owner]` under the randomness derived from the record
view key. -/
def Record.«from» (N : Network) (owner : Bytes) (value : Nat)
    (payload pid randomizer rvk : Bytes) : Except RecordError Record :=
  match Record.constructCiphertext N owner value payload pid randomizer rvk with
  | .error e => .error e
  | .ok ciphertext =>
      .ok ⟨owner, value, payload, pid, randomizer, rvk,
        N.commit (ciphertext.toBytes ++ owner) (recordViewKeyToCommRandomness N rvk)⟩

/-- `Record::new`: sample `(randomness, randomizer, record_view_key)` from
`generate_asymmetric_key` against the owner's public key (the `randomness`
output is used only transiently) and delegate to `Record::from`. -/
def Record.new (N : Network) (owner : Bytes) (value : Nat) (payload pid : Bytes)
    (rngSeed : Nat) : Except RecordError Record :=
  let gak := N.generateAsymmetricKey owner rngSeed
  Record.«from» N owner value payload pid gak.2.1 gak.2.2

/-- `Record::from_account_view_key`: re-derive the record view key from the
account view key and the ciphertext's randomizer, decrypt, decode, check the
decoded owner against the view key's address, and recompute the commitment. -/
def Record.fromAccountViewKey (N : Network) (vk : Bytes) (c : RecordCiphertext) :
    Except RecordError Record :=
  let randomizer := c.randomizer
  let rvk := N.generateSymmetricKey vk randomizer
  match c.toPlaintext N rvk with
  | .error e => .error e
  | .ok plaintext =>
      match decodePlaintext N plaintext with
      | .error e => .error e
      | .ok (owner, value, payload, pid) =>
          if owner = N.addressFromViewKey vk then
            .ok ⟨owner, value, payload, pid, randomizer, rvk,
              N.commit (c.toBytes ++ owner) (recordViewKeyToCommRandomness N rvk)⟩
          else .error .incorrectOwner

/-- `Record::from_record_view_key`: same recovery with the exact symmetric key
supplied directly; no ownership check is performed. -/
def Record.fromRecordViewKey (N : Network) (rvk : Bytes) (c : RecordCiphertext) :
    Except RecordError Record :=
  let randomizer := c.randomizer
  match c.toPlaintext N rvk with
  | .error e => .error e
  | .ok plaintext =>
      match decodePlaintext N plaintext with
      | .error e => .error e
      | .ok (owner, value, payload, pid) =>
          .ok ⟨owner, value, payload, pid, randomizer, rvk,
            N.commit (c.toBytes ++ owner) (recordViewKeyToCommRandomness N rvk)⟩

/-- `Record::encrypt`: re-derive the ciphertext from the record's own
`randomizer` and `record_view_key` as
`RecordCiphertext::from(&to_bytes_le![randomizer, encrypt(record_view_key, plaintext)])`
(note: no `generate_key_commitment` segment on this path). -/
def Record.encryptRecord (N : Network) (r : Record) : Except RecordError RecordCiphertext :=
  match encodePlaintext N r.owner r.value r.payload r.program_id with
  | .error e => .error e
  | .ok plaintext =>
      RecordCiphertext.fromBytes N (r.randomizer ++ N.encrypt r.record_view_key plaintext)

/-- `Record::to_serial_number`: require that the compute key's derived address
equals the record owner, then evaluate the PRF with the seed read from the
compute key's `sk_prf` bytes and the record commitment as input. -/
def Record.toSerialNumber (N : Network) (r : Record) (computeKey : Bytes) :
    Except RecordError Bytes :=
  if r.owner ≠ N.addressFromComputeKey computeKey then .error .incorrectComputeKey
  else .ok (N.prf (N.skPrf computeKey) r.commitment)

/-- `Record::is_dummy`. -/
def Record.isDummy (N : Network) (r : Record) : Bool :=
  isDummyFields N r.value r.payload r.program_id

/-- `ToBytes for Record` (`write_le`):
`owner ∥ value ∥ payload ∥ program_id ∥ randomizer ∥ record_view_key`. -/
def Record.writeLe (r : Record) : Bytes :=
  r.owner ++ (u64ToBytesLE r.value ++ (r.payload ++ (r.program_id ++
    (r.randomizer ++ r.record_view_key))))

/-- `FromBytes for Record` (`read_le`): read the six fields at their fixed
widths and reconstruct the record via `Record::from` (the commitment is not
stored and is rederived). -/
def Record.readLe (N : Network) (b : Bytes) : Except RecordError Record :=
  if N.addressSize + 8 + N.payloadSize + N.programIdSize + N.randomizerSize + N.viewKeySize
      ≤ b.length then
    Record.«from» N (b.take N.addressSize)
      (bytesToNatLE ((b.drop N.addressSize).take 8))
      (((b.drop N.addressSize).drop 8).take N.payloadSize)
      ((((b.drop N.addressSize).drop 8).drop N.payloadSize).take N.programIdSize)
      (((((b.drop N.addressSize).drop 8).drop N.payloadSize).drop N.programIdSize).take
        N.randomizerSize)
      ((((((b.drop N.addressSize).drop 8).drop N.payloadSize).drop N.programIdSize).drop
        N.randomizerSize).take N.viewKeySize)
  else .error .bytesExhausted

/-- The human-readable (JSON) form of a record: a structured object with the
seven explicit fields of `Display for Record`. -/
structure RecordText where
  owner : Bytes
  value : Nat
  payload : Bytes
  program_id : Bytes
  randomizer : Bytes
  record_view_key : Bytes
  commitment : Bytes
deriving DecidableEq, Repr

/-- `Display for Record`: emit the seven fields as a structured object. -/
def Record.display (r : Record) : RecordText :=
  ⟨r.owner, r.value, r.payload, r.program_id, r.randomizer, r.record_view_key, r.commitment⟩

/-- `FromStr for Record`: read the embedded commitment, rebuild the record from
the six parsed fields via `Record::from`, and require the freshly recomputed
commitment to equal the embedded one; mismatch is
`InvalidCommitment(expected, actual)` carrying both digests. -/
def Record.fromStr (N : Network) (t : RecordText) : Except RecordError Record :=
  match Record.«from» N t.owner t.value t.payload t.program_id t.randomizer t.record_view_key with
  | .error e => .error e
  | .ok record =>
      if t.commitment = record.commitment then .ok record
      else .error (.invalidCommitment t.commitment record.commitment)

/-- A record whose fields carry the widths fixed by the network parameters
(enforced by the Rust types `Address`, `Payload`, `ProgramID`, ...). -/
def Record.sized (N : Network) (r : Record) : Prop :=
  r.owner.length = N.addressSize ∧ r.payload.length = N.payloadSize ∧
  r.program_id.length = N.programIdSize ∧ r.randomizer.length = N.randomizerSize ∧
  r.record_view_key.length = N.viewKeySize ∧ r.value < 2 ^ 64

instance (N : Network) (r : Record) : Decidable (Record.sized N r) := by
  unfold Record.sized; infer_instance

/-- A record that is a fixed point of `Record::from` on its own fields — exactly
the records produced by some construction or recovery path. -/
def Record.wellFormed (N : Network) (r : Record) : Prop :=
  Record.«from» N r.owner r.value r.payload r.program_id r.randomizer r.record_view_key = .ok r

instance (N : Network) (r : Record) : Decidable (Record.wellFormed N r) := by
  unfold Record.wellFormed; infer_instance

/-- A concrete instantiation of the network parameter set and the three
primitive ports, used to evaluate the operations on explicit inputs. All
widths are one byte; the symmetric cipher is byte-wise addition of the key
modulo 256, with key agreement
`generateSymmetricKey vk randomizer = vk + randomizer` and address derivation
`vk + 1`. -/
def testNetwork : Network where
  addressSize := 1
  payloadSize := 1
  programIdSize := 1
  randomizerSize := 1
  viewKeySize := 1
  kcSize := 1
  noopProgramId := [0]
  scalarFieldOrder := 97
  generateAsymmetricKey := fun _pk seed => ([seed % 256], [(seed + 6) % 256], [(seed + 4) % 256])
  generateSymmetricKey := fun vk rand => [(bytesToNatLE vk + bytesToNatLE rand) % 256]
  generateKeyCommitment := fun rvk => [(bytesToNatLE rvk + 100) % 256]
  encrypt := fun k m => m.map (fun b => (b + bytesToNatLE k) % 256)
  decrypt := fun k c => some (c.map (fun b => (b + 256 - bytesToNatLE k % 256) % 256))
  commit := fun msg rand => [(msg.foldr (fun x acc => x + acc) 0 + rand) % 256]
  prf := fun seed input =>
    [(seed.foldr (fun x acc => x + acc) 0 + input.foldr (fun x acc => x + acc) 0 + 7) % 256]
  addressFromViewKey := fun vk => [(bytesToNatLE vk + 1) % 256]
  addressFromComputeKey := fun ck => [(bytesToNatLE ck + 1) % 256]
  skPrf := fun ck => [(bytesToNatLE ck + 50) % 256]

/-- The account view key of the owner `[3]` under `testNetwork`. -/
def cVk : Bytes := [2]

/-- The record `Record::from testNetwork [3] 5 [7] [1] [9] [11]` evaluates to. -/
def cRecord : Record := ⟨[3], 5, [7], [1], [9], [11], [26]⟩

/-- The construction-path ciphertext of `cRecord`
(randomizer ∥ key commitment ∥ symmetric encryption of the plaintext). -/
def cFullCiphertext : RecordCiphertext :=
  ⟨[9], [111], [14, 11, 16, 11, 11, 11, 11, 11, 11, 11, 18, 12]⟩

example : Record.«from» testNetwork [3] 5 [7] [1] [9] [11] = .ok cRecord := by decide
example : Record.constructCiphertext testNetwork [3] 5 [7] [1] [9] [11] = .ok cFullCiphertext := by
  decide

/-! ### Shared helper lemmas -/

theorem natToBytesLE_length (n v : Nat) : (natToBytesLE n v).length = n := by
  induction n generalizing v with
  | zero => rfl
  | succ n ih => simp [natToBytesLE, ih]

theorem bytesToNatLE_cons (x : Nat) (b : Bytes) :
    bytesToNatLE (x :: b) = x + 256 * bytesToNatLE b := rfl

theorem bytesToNatLE_natToBytesLE (n v : Nat) :
    bytesToNatLE (natToBytesLE n v) = v % 256 ^ n := by
  induction n generalizing v with
  | zero => simp [natToBytesLE, bytesToNatLE, Nat.mod_one]
  | succ n ih =>
    rw [natToBytesLE, bytesToNatLE_cons, ih, pow_succ']
    exact (Nat.mod_mul).symm

theorem u64_roundtrip (v : Nat) (h : v < 2 ^ 64) : bytesToNatLE (u64ToBytesLE v) = v := by
  rw [u64ToBytesLE, bytesToNatLE_natToBytesLE, Nat.mod_eq_of_lt]
  calc v < 2 ^ 64 := h
    _ = 256 ^ 8 := by norm_num

theorem plaintextBytes_length (N : Network) (owner : Bytes) (value : Nat) (payload pid : Bytes)
    (ho : owner.length = N.addressSize) (hp : payload.length = N.payloadSize)
    (hg : pid.length = N.programIdSize) :
    (plaintextBytes N owner value payload pid).length =
      1 + N.addressSize + 8 + N.payloadSize + N.programIdSize := by
  simp [plaintextBytes, u64ToBytesLE, natToBytesLE_length, ho, hp, hg]
  omega

theorem parse_plaintextBytes (N : Network) (owner : Bytes) (value : Nat) (payload pid : Bytes)
    (ho : owner.length = N.addressSize) (hp : payload.length = N.payloadSize)
    (hg : pid.length = N.programIdSize) (hv : value < 2 ^ 64) :
    parsePlaintextFields N (plaintextBytes N owner value payload pid) =
      (owner, value, payload, pid) := by
  have h8 : (u64ToBytesLE value).length = 8 := natToBytesLE_length 8 value
  unfold parsePlaintextFields plaintextBytes
  rw [List.take_left' ho, List.drop_left' ho]
  simp only [List.singleton_append, List.drop_succ_cons, List.drop_zero]
  rw [List.take_left' h8, List.drop_left' h8, List.take_left' hp, List.drop_left' hp,
    ← hg, List.take_length, u64_roundtrip value hv]

theorem flagByte_plaintextBytes (N : Network) (owner : Bytes) (value : Nat) (payload pid : Bytes)
    (ho : owner.length = N.addressSize) :
    plaintextFlagByte N (plaintextBytes N owner value payload pid) =
      boolByte (isDummyFields N value payload pid) := by
  unfold plaintextFlagByte plaintextBytes
  rw [List.drop_left' ho]
  simp [List.singleton_append]

theorem decode_plaintextBytes (N : Network) (owner : Bytes) (value : Nat) (payload pid : Bytes)
    (ho : owner.length = N.addressSize) (hp : payload.length = N.payloadSize)
    (hg : pid.length = N.programIdSize) (hv : value < 2 ^ 64) :
    decodePlaintext N (plaintextBytes N owner value payload pid) =
      .ok (owner, value, payload, pid) := by
  unfold decodePlaintext
  rw [plaintextBytes_length N owner value payload pid ho hp hg,
    parse_plaintextBytes N owner value payload pid ho hp hg hv,
    flagByte_plaintextBytes N owner value payload pid ho, if_pos rfl, if_pos rfl]

/-! ### Claim theorems -/

/-- C10: the serial number depends only on the compute key and the record's
owner and commitment fields — two records agreeing on owner and commitment
give identical `to_serial_number` results for every compute key, whatever
their other fields are. -/
theorem serialNumber_depends_only_on_owner_commitment (N : Network) (r1 r2 : Record)
    (ck : Bytes) (hown : r1.owner = r2.owner) (hcomm : r1.commitment = r2.commitment) :
    Record.toSerialNumber N r1 ck = Record.toSerialNumber N r2 ck := by
  unfold Record.toSerialNumber
  rw [hown, hcomm]

/-- Witness for C10: `cRecord` and a record differing in value, payload,
program id, randomizer and view key but sharing owner and commitment map to
the same serial number under the compute key `[2]`. -/
theorem serialNumber_depends_only_on_owner_commitment_witness :
    Record.toSerialNumber testNetwork cRecord [2] =
      Record.toSerialNumber testNetwork ⟨[3], 99, [42], [5], [1], [2], [26]⟩ [2] :=
  serialNumber_depends_only_on_owner_commitment testNetwork cRecord
    ⟨[3], 99, [42], [5], [1], [2], [26]⟩ [2] rfl rfl

/-- C4: `to_serial_number` fails with `IncorrectComputeKey` iff the address
derived from the supplied compute key differs from the record owner; on a
match it returns the PRF evaluation seeded from the compute key's `sk_prf`
with the record commitment as input. -/
theorem toSerialNumber_authorization (N : Network) (r : Record) (ck : Bytes) :
    (Record.toSerialNumber N r ck = .error .incorrectComputeKey ↔
      N.addressFromComputeKey ck ≠ r.owner) ∧
    (N.addressFromComputeKey ck = r.owner →
      Record.toSerialNumber N r ck = .ok (N.prf (N.skPrf ck) r.commitment)) := by
  by_cases h : r.owner = N.addressFromComputeKey ck
  · constructor
    · simp [Record.toSerialNumber, h]
    · intro _; simp [Record.toSerialNumber, h]
  · constructor
    · simp only [Record.toSerialNumber, if_pos h]
      constructor
      · intro _ he; exact h he.symm
      · intro _; trivial
    · intro he; exact absurd he.symm h

/-- Witness for C4: on `cRecord` the matching compute key `[2]` yields the PRF
evaluation of the commitment. -/
theorem toSerialNumber_authorization_witness :
    Record.toSerialNumber testNetwork cRecord [2] =
      .ok (testNetwork.prf (testNetwork.skPrf [2]) cRecord.commitment) :=
  (toSerialNumber_authorization testNetwork cRecord [2]).2 (by decide)

/-- C9: for plaintexts of the expected fixed width, `decode_plaintext`
recomputes the dummy predicate from the decoded fields and compares it with
the encoded flag byte: it returns the decoded fields exactly when they agree
and fails with the malformed-dummy-flag error exactly when they disagree. -/
theorem decodePlaintext_recomputes_dummy (N : Network) (pt : Bytes)
    (hlen : pt.length = 1 + N.addressSize + 8 + N.payloadSize + N.programIdSize) :
    (decodePlaintext N pt = .ok (parsePlaintextFields N pt) ↔
      plaintextFlagByte N pt = boolByte (isDummyFields N (parsePlaintextFields N pt).2.1
        (parsePlaintextFields N pt).2.2.1 (parsePlaintextFields N pt).2.2.2)) ∧
    (decodePlaintext N pt = .error .malformedDummyFlag ↔
      plaintextFlagByte N pt ≠ boolByte (isDummyFields N (parsePlaintextFields N pt).2.1
        (parsePlaintextFields N pt).2.2.1 (parsePlaintextFields N pt).2.2.2)) := by
  unfold decodePlaintext
  rw [if_pos hlen]
  by_cases h : plaintextFlagByte N pt = boolByte (isDummyFields N (parsePlaintextFields N pt).2.1
      (parsePlaintextFields N pt).2.2.1 (parsePlaintextFields N pt).2.2.2)
  · simp [h]
  · simp [h]

/-- Witness for C9: the 12-byte plaintext of the record
`([3], 5, [7], [1])` has a consistent flag byte and decodes to its fields. -/
theorem decodePlaintext_recomputes_dummy_witness :
    decodePlaintext testNetwork [3, 0, 5, 0, 0, 0, 0, 0, 0, 0, 7, 1] =
      .ok (parsePlaintextFields testNetwork [3, 0, 5, 0, 0, 0, 0, 0, 0, 0, 7, 1]) :=
  (decodePlaintext_recomputes_dummy testNetwork [3, 0, 5, 0, 0, 0, 0, 0, 0, 0, 7, 1]
    (by decide)).1.mpr (by decide)

/-- C5: in `from_account_view_key`, after decryption and decoding the decoded
owner is compared against the address derived from the supplied view key; a
mismatch fails with the ownership error and no record is returned, and every
returned record has owner equal to the view key's derived address. -/
theorem fromAccountViewKey_ownership (N : Network) :
    (∀ (vk : Bytes) (c : RecordCiphertext) (r : Record),
      Record.fromAccountViewKey N vk c = .ok r → r.owner = N.addressFromViewKey vk) ∧
    (∀ (vk : Bytes) (c : RecordCiphertext) (pt owner : Bytes) (value : Nat)
      (payload pid : Bytes),
      RecordCiphertext.toPlaintext N c (N.generateSymmetricKey vk c.randomizer) = .ok pt →
      decodePlaintext N pt = .ok (owner, value, payload, pid) →
      owner ≠ N.addressFromViewKey vk →
      Record.fromAccountViewKey N vk c = .error .incorrectOwner) := by
  constructor
  · intro vk c r h
    simp only [Record.fromAccountViewKey] at h
    split at h
    · exact absurd h (by simp)
    · split at h
      · exact absurd h (by simp)
      · split at h
        · rename_i owner value payload pid hrest howner
          injection h with h2
          subst h2
          exact howner
        · exact absurd h (by simp)
  · intro vk c pt owner value payload pid hpt hdec hown
    simp [Record.fromAccountViewKey, hpt, hdec, hown]

/-- Witness for C5: recovering `cRecord` from its construction ciphertext with
the view key `[2]` returns a record owned by that view key's address. -/
theorem fromAccountViewKey_ownership_witness :
    cRecord.owner = testNetwork.addressFromViewKey cVk :=
  (fromAccountViewKey_ownership testNetwork).1 cVk cFullCiphertext cRecord (by decide)

/-- C2: every record returned by `from`, `from_account_view_key` or
`from_record_view_key` carries
`commitment = Commit(ciphertext_bytes ∥ owner_bytes, randomness)`, the
randomness being `from_bytes_le_mod_order` of the record view key bytes and
the ciphertext the one of that path; no path returns a record violating it. -/
theorem commitment_invariant (N : Network) :
    (∀ (owner : Bytes) (value : Nat) (payload pid randomizer rvk : Bytes)
      (c : RecordCiphertext) (r : Record),
      Record.constructCiphertext N owner value payload pid randomizer rvk = .ok c →
      Record.«from» N owner value payload pid randomizer rvk = .ok r →
      r.commitment = N.commit (c.toBytes ++ r.owner)
        (recordViewKeyToCommRandomness N r.record_view_key)) ∧
    (∀ (vk : Bytes) (c : RecordCiphertext) (r : Record),
      Record.fromAccountViewKey N vk c = .ok r →
      r.commitment = N.commit (c.toBytes ++ r.owner)
        (recordViewKeyToCommRandomness N r.record_view_key)) ∧
    (∀ (rvk : Bytes) (c : RecordCiphertext) (r : Record),
      Record.fromRecordViewKey N rvk c = .ok r →
      r.commitment = N.commit (c.toBytes ++ r.owner)
        (recordViewKeyToCommRandomness N r.record_view_key)) := by
  refine ⟨?_, ?_, ?_⟩
  · intro owner value payload pid randomizer rvk c r hc h
    unfold Record.«from» at h
    simp only [hc] at h
    injection h with h2
    subst h2
    rfl
  · intro vk c r h
    simp only [Record.fromAccountViewKey] at h
    split at h
    · exact absurd h (by simp)
    · split at h
      · exact absurd h (by simp)
      · split at h
        · injection h with h2; subst h2; rfl
        · exact absurd h (by simp)
  · intro rvk c r h
    simp only [Record.fromRecordViewKey] at h
    split at h
    · exact absurd h (by simp)
    · split at h
      · exact absurd h (by simp)
      · injection h with h2; subst h2; rfl

/-- Witness for C2: the record recovered from `cFullCiphertext` through the
account-view-key path satisfies the commitment invariant. -/
theorem commitment_invariant_witness :
    cRecord.commitment = testNetwork.commit (cFullCiphertext.toBytes ++ cRecord.owner)
      (recordViewKeyToCommRandomness testNetwork cRecord.record_view_key) :=
  (commitment_invariant testNetwork).2.1 cVk cFullCiphertext cRecord (by decide)

/-- C8: for fields at the network's fixed widths (and under the 65535-byte
protocol ceiling), the plaintext codec is an exact inversion: encoding
produces bytes of the fixed total length
`1 + |owner| + 8 + |payload| + |program_id|` independent of content, and
decoding that output returns exactly the original fields. -/
theorem plaintext_codec_inversion (N : Network) (owner : Bytes) (value : Nat)
    (payload pid : Bytes)
    (ho : owner.length = N.addressSize) (hp : payload.length = N.payloadSize)
    (hg : pid.length = N.programIdSize) (hv : value < 2 ^ 64)
    (hceil : 1 + N.addressSize + 8 + N.payloadSize + N.programIdSize ≤ 65535) :
    encodePlaintext N owner value payload pid = .ok (plaintextBytes N owner value payload pid) ∧
    (plaintextBytes N owner value payload pid).length =
      1 + N.addressSize + 8 + N.payloadSize + N.programIdSize ∧
    decodePlaintext N (plaintextBytes N owner value payload pid) =
      .ok (owner, value, payload, pid) := by
  have hl := plaintextBytes_length N owner value payload pid ho hp hg
  refine ⟨?_, hl, decode_plaintextBytes N owner value payload pid ho hp hg hv⟩
  unfold encodePlaintext
  rw [hl, if_pos hceil]

/-- Witness for C8: the concrete fields `([3], 5, [7], [1])` encode to a
12-byte plaintext that decodes back to the same fields. -/
theorem plaintext_codec_inversion_witness :
    decodePlaintext testNetwork (plaintextBytes testNetwork [3] 5 [7] [1]) =
      .ok ([3], 5, [7], [1]) :=
  (plaintext_codec_inversion testNetwork [3] 5 [7] [1] (by decide) (by decide) (by decide)
    (by decide) (by decide)).2.2

theorem fromBytes_map_toBytes (N : Network) (b : Bytes)
    (h : N.randomizerSize + N.kcSize ≤ b.length) :
    (RecordCiphertext.fromBytes N b).map RecordCiphertext.toBytes = .ok b := by
  unfold RecordCiphertext.fromBytes
  rw [if_pos h]
  show Except.ok (RecordCiphertext.toBytes _) = Except.ok b
  unfold RecordCiphertext.toBytes
  rw [show b.drop (N.randomizerSize + N.kcSize) = (b.drop N.randomizerSize).drop N.kcSize by
      rw [List.drop_drop, Nat.add_comm]]
  rw [List.take_append_drop, List.take_append_drop]

/-- C3: `encrypt()` is a pure re-derivation with no RNG input: its ciphertext
bytes are exactly the record's own randomizer followed by a fresh symmetric
encryption of the encoded plaintext under the record view key — byte-for-byte
the construction ciphertext with the key-commitment segment omitted. -/
theorem encrypt_is_rederivation (N : Network) (r : Record) (pt : Bytes)
    (hpt : encodePlaintext N r.owner r.value r.payload r.program_id = .ok pt)
    (hlen1 : N.randomizerSize + N.kcSize ≤
      (r.randomizer ++ N.encrypt r.record_view_key pt).length)
    (hlen2 : N.randomizerSize + N.kcSize ≤
      (r.randomizer ++ (N.generateKeyCommitment r.record_view_key ++
        N.encrypt r.record_view_key pt)).length) :
    (Record.encryptRecord N r).map RecordCiphertext.toBytes =
      .ok (r.randomizer ++ N.encrypt r.record_view_key pt) ∧
    (Record.constructCiphertext N r.owner r.value r.payload r.program_id r.randomizer
        r.record_view_key).map RecordCiphertext.toBytes =
      .ok (r.randomizer ++ (N.generateKeyCommitment r.record_view_key ++
        N.encrypt r.record_view_key pt)) := by
  constructor
  · unfold Record.encryptRecord
    rw [hpt]
    exact fromBytes_map_toBytes N _ hlen1
  · unfold Record.constructCiphertext
    rw [hpt]
    exact fromBytes_map_toBytes N _ hlen2

/-- Witness for C3: `cRecord`'s re-derived ciphertext is its randomizer `[9]`
followed by the symmetric encryption of its plaintext, while the construction
ciphertext additionally carries the key-commitment byte `[111]`. -/
theorem encrypt_is_rederivation_witness :
    (Record.encryptRecord testNetwork cRecord).map RecordCiphertext.toBytes =
      .ok ([9] ++ testNetwork.encrypt [11] (plaintextBytes testNetwork [3] 5 [7] [1])) :=
  (encrypt_is_rederivation testNetwork cRecord (plaintextBytes testNetwork [3] 5 [7] [1])
    (by decide) (by decide) (by decide)).1

/-- C6: human-readable deserialization rebuilds the record from the parsed
fields via `from` and compares the recomputed commitment with the embedded
one: a mismatch fails with `InvalidCommitment` carrying both digests, and for
every valid record the text round trip returns an equal record. -/
theorem text_roundtrip_commitment_check (N : Network) :
    (∀ r : Record, Record.wellFormed N r → Record.fromStr N (Record.display r) = .ok r) ∧
    (∀ (t : RecordText) (rec : Record),
      Record.«from» N t.owner t.value t.payload t.program_id t.randomizer
        t.record_view_key = .ok rec →
      t.commitment ≠ rec.commitment →
      Record.fromStr N t = .error (.invalidCommitment t.commitment rec.commitment)) := by
  constructor
  · intro r hwf
    unfold Record.wellFormed at hwf
    simp [Record.fromStr, Record.display, hwf]
  · intro t rec h hne
    simp only [Record.fromStr, h]
    rw [if_neg hne]

/-- Witness for C6: `cRecord` round-trips through its displayed text form. -/
theorem text_roundtrip_commitment_check_witness :
    Record.fromStr testNetwork (Record.display cRecord) = .ok cRecord :=
  (text_roundtrip_commitment_check testNetwork).1 cRecord (by decide)

/-- C7: binary round trip — deserializing the binary form
`owner ∥ value ∥ payload ∥ program_id ∥ randomizer ∥ record_view_key` of a
valid record yields an equal record; the commitment is not stored but
rederived through the `from` path, so it matches by construction. -/
theorem binary_roundtrip (N : Network) (r : Record)
    (hs : Record.sized N r) (hwf : Record.wellFormed N r) :
    Record.readLe N (Record.writeLe r) = .ok r := by
  obtain ⟨ho, hp, hg, hr, hk, hv⟩ := hs
  have h8 : (u64ToBytesLE r.value).length = 8 := natToBytesLE_length 8 r.value
  have hlen : N.addressSize + 8 + N.payloadSize + N.programIdSize + N.randomizerSize +
      N.viewKeySize ≤ (r.owner ++ (u64ToBytesLE r.value ++ (r.payload ++ (r.program_id ++
      (r.randomizer ++ r.record_view_key))))).length := by
    simp [List.length_append, ho, hp, hg, hr, hk, h8]
    omega
  unfold Record.readLe Record.writeLe
  rw [if_pos hlen, List.take_left' ho, List.drop_left' ho, List.take_left' h8,
    List.drop_left' h8, List.take_left' hp, List.drop_left' hp, List.take_left' hg,
    List.drop_left' hg, List.take_left' hr, List.drop_left' hr, ← hk, List.take_length,
    u64_roundtrip r.value hv]
  exact hwf

/-- Witness for C7: `cRecord` round-trips through its 13-byte binary form. -/
theorem binary_roundtrip_witness :
    Record.readLe testNetwork (Record.writeLe cRecord) = .ok cRecord :=
  binary_roundtrip testNetwork cRecord (by decide) (by decide)

/-- C1 counterexample: for the freshly constructed record
`Record::from testNetwork [3] 5 [7] [1] [9] [11]` of owner `[3]`, with the
owner's view key `cVk = [2]` (whose derived address is the owner and whose
key agreement reproduces the record view key), recovering from the re-derived
ciphertext `r.encrypt()` does not succeed with a record equal to `r`: it fails
outright, because `encrypt()` omits the key-commitment segment that
construction placed in the ciphertext. -/
theorem recover_from_reencryption_counterexample :
    Record.«from» testNetwork [3] 5 [7] [1] [9] [11] = .ok cRecord ∧
    testNetwork.addressFromViewKey cVk = cRecord.owner ∧
    testNetwork.generateSymmetricKey cVk cRecord.randomizer = cRecord.record_view_key ∧
    (Record.encryptRecord testNetwork cRecord).bind
      (fun c => Record.fromAccountViewKey testNetwork cVk c) =
      .error .mismatchingViewKeyCommitment := by decide

theorem constructCiphertext_eq (N : Network) (owner : Bytes) (value : Nat)
    (payload pid randomizer rvk : Bytes) (c : RecordCiphertext)
    (hc : Record.constructCiphertext N owner value payload pid randomizer rvk = .ok c)
    (hrand : randomizer.length = N.randomizerSize)
    (hkc : (N.generateKeyCommitment rvk).length = N.kcSize) :
    c = ⟨randomizer, N.generateKeyCommitment rvk,
      N.encrypt rvk (plaintextBytes N owner value payload pid)⟩ := by
  unfold Record.constructCiphertext at hc
  cases hE : encodePlaintext N owner value payload pid with
  | error e => rw [hE] at hc; simp at hc
  | ok pt =>
    have hptv : pt = plaintextBytes N owner value payload pid := by
      unfold encodePlaintext at hE
      split at hE
      · injection hE with h; exact h.symm
      · simp at hE
    subst hptv
    simp only [hE] at hc
    unfold RecordCiphertext.fromBytes at hc
    split at hc
    · injection hc with h
      rw [← h]
      have e2 : (randomizer ++ (N.generateKeyCommitment rvk ++
          N.encrypt rvk (plaintextBytes N owner value payload pid))).drop N.randomizerSize =
          N.generateKeyCommitment rvk ++ N.encrypt rvk (plaintextBytes N owner value payload pid) :=
        List.drop_left' hrand
      have e3 : (randomizer ++ (N.generateKeyCommitment rvk ++
          N.encrypt rvk (plaintextBytes N owner value payload pid))).drop
            (N.randomizerSize + N.kcSize) =
          N.encrypt rvk (plaintextBytes N owner value payload pid) := by
        rw [← List.drop_drop, e2, List.drop_left' hkc]
      rw [List.take_left' hrand, e2, e3, List.take_left' hkc]
    · simp at hc

theorem from_ok_fields (N : Network) (owner : Bytes) (value : Nat)
    (payload pid randomizer rvk : Bytes) (c : RecordCiphertext) (r : Record)
    (hc : Record.constructCiphertext N owner value payload pid randomizer rvk = .ok c)
    (hfrom : Record.«from» N owner value payload pid randomizer rvk = .ok r) :
    r = ⟨owner, value, payload, pid, randomizer, rvk,
      N.commit (c.toBytes ++ owner) (recordViewKeyToCommRandomness N rvk)⟩ := by
  unfold Record.«from» at hfrom
  simp only [hc] at hfrom
  injection hfrom with h
  exact h.symm

/-- C1 amended: recovery of a freshly constructed record for owner `O` with
`O`'s account view key reproduces the record equal in every field when applied
to the full construction ciphertext
(`randomizer ∥ generate_key_commitment(record_view_key) ∥ encrypt(record_view_key, plaintext)`)
rather than to `r.encrypt()` (which omits the key-commitment segment and makes
the recovery fail its wrong-key check). -/
theorem recover_from_construction_ciphertext (N : Network) (vk owner : Bytes) (value : Nat)
    (payload pid randomizer rvk : Bytes) (c : RecordCiphertext) (r : Record)
    (hfrom : Record.«from» N owner value payload pid randomizer rvk = .ok r)
    (hc : Record.constructCiphertext N owner value payload pid randomizer rvk = .ok c)
    (hvk : N.addressFromViewKey vk = owner)
    (hsym : N.generateSymmetricKey vk randomizer = rvk)
    (hrand : randomizer.length = N.randomizerSize)
    (hkc : (N.generateKeyCommitment rvk).length = N.kcSize)
    (hdec : N.decrypt rvk (N.encrypt rvk (plaintextBytes N owner value payload pid)) =
      some (plaintextBytes N owner value payload pid))
    (ho : owner.length = N.addressSize) (hp : payload.length = N.payloadSize)
    (hg : pid.length = N.programIdSize) (hv : value < 2 ^ 64) :
    Record.fromAccountViewKey N vk c = .ok r := by
  have hcv := constructCiphertext_eq N owner value payload pid randomizer rvk c hc hrand hkc
  have hr := from_ok_fields N owner value payload pid randomizer rvk c r hc hfrom
  subst hcv
  subst hr
  simp [Record.fromAccountViewKey, RecordCiphertext.toPlaintext, hsym, hdec,
    decode_plaintextBytes N owner value payload pid ho hp hg hv, hvk]

/-- Witness for the amended C1: the concrete record `cRecord` is recovered in
full from its construction ciphertext with the owner's view key. -/
theorem recover_from_construction_ciphertext_witness :
    Record.fromAccountViewKey testNetwork cVk cFullCiphertext = .ok cRecord :=
  recover_from_construction_ciphertext testNetwork cVk [3] 5 [7] [1] [9] [11]
    cFullCiphertext cRecord (by decide) (by decide) (by decide) (by decide) (by decide)
    (by decide) (by decide) (by decide) (by decide) (by decide) (by decide)

end SnarkVM
